import Mathlib

/-!
Verification development for the index-rebalancing paper-trading backend.

The Python source is shallowly embedded: Django model rows become Lean
structures, a ledger snapshot becomes an explicit `EngineState`, database
writes become state-passing functions, and `Decimal` money arithmetic is
idealised as exact rational arithmetic (the spec requires exact decimal
arithmetic for money).  External collaborators (Yahoo Finance prices, the
signal providers' data fetches) are passed in as explicit oracle values or
oracle functions `String → Option _`, matching the `None` / error-sentinel
behaviour of the source.
-/

namespace TradingBack

/-- Python `int(x)` truncation toward zero on a rational. -/
def pythonInt (q : ℚ) : ℤ :=
  if 0 ≤ q then ⌊q⌋ else -⌊-q⌋

/-- Python `round` of an integer-scaled value: round half to even. -/
def pyRoundZ (q : ℚ) : ℤ :=
  let f := ⌊q⌋
  let r := q - (f : ℚ)
  if r < 1/2 then f
  else if 1/2 < r then f + 1
  else if f % 2 = 0 then f else f + 1

/-- Python `round(x, 1)` (half to even), as used by the next-day predictor. -/
def pyRound1 (q : ℚ) : ℚ := (pyRoundZ (10 * q) : ℚ) / 10

/-- Python `round(x, 2)` (half to even), as used for prices and confidences. -/
def pyRound2 (q : ℚ) : ℚ := (pyRoundZ (100 * q) : ℚ) / 100

/-- Risk levels of `AutoTradingEngine.RISK_CONFIG`. -/
inductive RiskLevel
  | LOW
  | MEDIUM
  | HIGH
deriving DecidableEq, Repr

/-- Bot lifecycle status values used by the views. -/
inductive BotStatus
  | ACTIVE
  | PAUSED
  | STOPPED
deriving DecidableEq, Repr

/-- One entry of `AutoTradingEngine.RISK_CONFIG`. -/
structure RiskConfig where
  max_position_size : ℚ
  max_portfolio_exposure : ℚ
  stop_loss : ℚ
  take_profit : ℚ
  min_confidence : ℚ
  stocks : List String
  expected_monthly_return : ℚ
deriving DecidableEq, Repr

/-- The fixed `RISK_CONFIG` table of `auto_trading_engine.py`. -/
def RISK_CONFIG : RiskLevel → RiskConfig
  | .LOW =>
    { max_position_size := 10/100
      max_portfolio_exposure := 40/100
      stop_loss := 5/100
      take_profit := 8/100
      min_confidence := 70
      stocks := ["AAPL", "MSFT", "JNJ", "PG", "KO"]
      expected_monthly_return := 5/2 }
  | .MEDIUM =>
    { max_position_size := 15/100
      max_portfolio_exposure := 60/100
      stop_loss := 8/100
      take_profit := 12/100
      min_confidence := 60
      stocks := ["AAPL", "GOOGL", "NVDA", "TSLA", "AMD", "META", "NFLX"]
      expected_monthly_return := 5 }
  | .HIGH =>
    { max_position_size := 20/100
      max_portfolio_exposure := 80/100
      stop_loss := 12/100
      take_profit := 20/100
      min_confidence := 50
      stocks := ["NVDA", "TSLA", "AMD", "COIN", "PLTR", "SOFI", "RIOT"]
      expected_monthly_return := 10 }

/-- A `Holding` row: one open position of a user in one ticker. -/
structure Holding where
  stock : String
  quantity : ℤ
  buying_price : ℚ
  current_price : ℚ
deriving DecidableEq, Repr

/-- Modelled from the spec: `Holding.total_invested` is a derived property of
the repository's `models.py`, which is not among the provided sources.
Spec section 3: total invested = avg price times quantity. -/
def Holding.total_invested (h : Holding) : ℚ := h.buying_price * h.quantity

/-- Modelled from the spec: `Holding.current_value` from `models.py` (absent
from the sources). Spec section 3: current value = current price times
quantity. -/
def Holding.current_value (h : Holding) : ℚ := h.current_price * h.quantity

/-- Modelled from the spec: `Holding.profit_loss` from `models.py` (absent
from the sources). Spec section 3: profit loss = current value minus total
invested. -/
def Holding.profit_loss (h : Holding) : ℚ := h.current_value - h.total_invested

/-- Modelled from the spec: `Holding.profit_loss_percentage` from `models.py`
(absent from the sources). Spec section 3: profit loss divided by total
invested times 100, and zero when total invested is zero. -/
def Holding.profit_loss_percentage (h : Holding) : ℚ :=
  if h.total_invested = 0 then 0 else h.profit_loss / h.total_invested * 100

/-- A `Transaction` row: immutable append-only ledger record. -/
structure Transaction where
  transaction_type : String
  debit : ℚ
  credit : ℚ
  description : String
  balance_after : ℚ
deriving DecidableEq, Repr

/-- A `BotTrade` row: immutable record of one executed engine order.
`confidence_score` is set on BUY rows, `profit_loss` on SELL rows. -/
structure BotTrade where
  stock : String
  action : String
  quantity : ℤ
  price : ℚ
  total_value : ℚ
  strategy_used : String
  confidence_score : Option ℚ
  profit_loss : Option ℚ
deriving DecidableEq, Repr

/-- An `AutoTradingBot` row. -/
structure Bot where
  risk_level : RiskLevel
  status : BotStatus
  initial_capital : ℚ
  current_capital : ℚ
  total_profit_loss : ℚ
  total_trades : ℤ
  winning_trades : ℤ
  losing_trades : ℤ
  use_pivot : Bool
  use_prediction : Bool
  use_screener : Bool
  use_index_rebalancing : Bool
deriving DecidableEq, Repr

/-- Snapshot of the ledger rows one engine run touches: the owning account
balance, the account's holdings, the transaction log (newest first), the
bot-trade log (newest first) and the bot row. -/
structure EngineState where
  balance : ℚ
  holdings : List Holding
  transactions : List Transaction
  botTrades : List BotTrade
  bot : Bot
deriving DecidableEq, Repr

/-- One `(name, score)` signal entry collected by `analyze_stock` (the third
component of the Python tuple, the raw provider payload, carries no
decision-relevant data and is dropped). -/
structure Signal where
  name : String
  score : ℚ
deriving DecidableEq, Repr

/-- The combined analysis dict returned by `analyze_stock`. -/
structure Analysis where
  action : String
  confidence : ℚ
  signals : List Signal
  ticker : String
deriving DecidableEq, Repr

/-- Embedding of `AutoTradingEngine._signal_to_score`: fixed categorical score table,
unrecognised labels score 0. -/
def signal_to_score (signal : String) : ℚ :=
  if signal = "STRONG_BUY" then 90
  else if signal = "BUY" then 70
  else if signal = "HOLD_BULLISH" then 50
  else if signal = "HOLD_BEARISH" then -50
  else if signal = "SELL" then -70
  else if signal = "STRONG_SELL" then -90
  else 0

/-- The signal-collection phase of `AutoTradingEngine.analyze_stock`.
`pivotResult` is the pivot provider's `signal` label (none on error
sentinel); `predResult` is the next-day provider's `(prediction, confidence)`
pair (none on error sentinel).  The source queries only these two
strategies; the screener and index-rebalancing strategies held in
`self.strategies` are never consulted by `analyze_stock`. -/
def collect_signals (bot : Bot) (pivotResult : Option String)
    (predResult : Option (String × ℚ)) : List Signal :=
  (if bot.use_pivot then
    match pivotResult with
    | some sig => [⟨"Pivot", signal_to_score sig⟩]
    | none => []
  else []) ++
  (if bot.use_prediction then
    match predResult with
    | some pr => [⟨"Prediction", if pr.1 = "UP" then pr.2 else -pr.2⟩]
    | none => []
  else [])

/-- The arithmetic mean of the collected scores, as computed by
`analyze_stock`: `sum(s[1] for s in signals) / len(signals)`. -/
def mean_score (signals : List Signal) : ℚ :=
  (signals.map Signal.score).sum / (signals.length : ℚ)

/-- Embedding of `AutoTradingEngine.analyze_stock`.  The screener and index-rebalancing
oracle results are taken as arguments to mirror the four strategies enabled
in `self.strategies`, but — exactly as in the source — the body never reads
them. -/
def analyze_stock (bot : Bot) (ticker : String) (pivotResult : Option String)
    (predResult : Option (String × ℚ))
    (screenerResult indexResult : Option (String × ℚ)) : Option Analysis :=
  let _ := screenerResult
  let _ := indexResult
  let signals := collect_signals bot pivotResult predResult
  if signals.isEmpty then none
  else
    let avg_score := mean_score signals
    some
      { action :=
          if (RISK_CONFIG bot.risk_level).min_confidence < avg_score then "BUY"
          else "HOLD"
        confidence := |avg_score|
        signals := signals
        ticker := ticker }

/-- The `Holding.objects.get_or_create` plus weighted-average update shared
verbatim by `AutoTradingEngine.execute_buy` and the manual `buy_stock` view:
create the row if absent, otherwise merge the fill into the existing row via
`new_avg = (old_avg*old_qty + price*qty) / (old_qty+qty)`. -/
def merge_fill (holdings : List Holding) (ticker : String) (qty : ℤ)
    (price : ℚ) : List Holding :=
  match holdings.find? (fun h => h.stock == ticker) with
  | none => ⟨ticker, qty, price, price⟩ :: holdings
  | some h =>
    let total_quantity := h.quantity + qty
    let total_cost_existing := h.buying_price * (h.quantity : ℚ) + price * (qty : ℚ)
    holdings.map (fun g =>
      if g.stock == ticker then
        { g with
          buying_price := total_cost_existing / (total_quantity : ℚ)
          quantity := total_quantity
          current_price := price }
      else g)

/-- First database write of `execute_buy`: the Holding upsert. -/
def buyHoldingWrite (ticker : String) (qty : ℤ) (price : ℚ)
    (s : EngineState) : EngineState :=
  { s with holdings := merge_fill s.holdings ticker qty price }

/-- Second database write of `execute_buy`: `user.balance -= total_cost`. -/
def buyBalanceWrite (total_cost : ℚ) (s : EngineState) : EngineState :=
  { s with balance := s.balance - total_cost }

/-- Third database write of `execute_buy`: the bot row update. -/
def buyBotWrite (total_cost : ℚ) (s : EngineState) : EngineState :=
  { s with
    bot :=
      { s.bot with
        current_capital := s.bot.current_capital - total_cost
        total_trades := s.bot.total_trades + 1 } }

/-- Fourth database write of `execute_buy`: `Transaction.objects.create`,
carrying the post-decrement balance snapshot. -/
def buyTxWrite (total_cost : ℚ) (s : EngineState) : EngineState :=
  { s with
    transactions :=
      { transaction_type := "buy"
        debit := total_cost
        credit := 0
        description := "[BOT] buy"
        balance_after := s.balance } :: s.transactions }

/-- The `BotTrade` row built by `execute_buy`. -/
def buyTradeRecord (ticker : String) (qty : ℤ) (price total_cost : ℚ)
    (analysis : Analysis) : BotTrade :=
  { stock := ticker
    action := "BUY"
    quantity := qty
    price := price
    total_value := total_cost
    strategy_used := String.intercalate ", " (analysis.signals.map Signal.name)
    confidence_score := some (pyRound2 analysis.confidence)
    profit_loss := none }

/-- Fifth database write of `execute_buy`: `BotTrade.objects.create`. -/
def buyTradeWrite (t : BotTrade) (s : EngineState) : EngineState :=
  { s with botTrades := t :: s.botTrades }

/-- The five database writes of `execute_buy`, in source order. -/
def buyWrites (ticker : String) (qty : ℤ) (price total_cost : ℚ)
    (analysis : Analysis) : List (EngineState → EngineState) :=
  [buyHoldingWrite ticker qty price, buyBalanceWrite total_cost,
   buyBotWrite total_cost, buyTxWrite total_cost,
   buyTradeWrite (buyTradeRecord ticker qty price total_cost analysis)]

/-- Apply a sequence of database writes in order. -/
def applyWrites (ws : List (EngineState → EngineState))
    (s : EngineState) : EngineState :=
  ws.foldl (fun t w => w t) s

/-- Embedding of `AutoTradingEngine.execute_buy`.  `livePrice` is the Yahoo Finance price
(`none` when unavailable; Python `if not price` also rejects a 0.0 price).
Every precondition failure returns the state unchanged with no trade. -/
def execute_buy (s : EngineState) (ticker : String) (analysis : Analysis)
    (livePrice : Option ℚ) : EngineState × Option BotTrade :=
  match livePrice with
  | none => (s, none)
  | some p0 =>
    if p0 = 0 then (s, none)
    else
      let price := pyRound2 p0
      let max_investment :=
        s.bot.current_capital * (RISK_CONFIG s.bot.risk_level).max_position_size
      let quantity := pythonInt (max_investment / price)
      if quantity = 0 then (s, none)
      else
        let total_cost := price * (quantity : ℚ)
        if s.bot.current_capital < total_cost then (s, none)
        else
          (applyWrites (buyWrites ticker quantity price total_cost analysis) s,
           some (buyTradeRecord ticker quantity price total_cost analysis))

/-- Embedding of `AutoTradingEngine.execute_sell`: liquidate the entire holding at the
live price, credit balance and bot capital with the revenue, book the
realised profit or loss, append the sell Transaction and BotTrade rows and
delete the Holding row. -/
def execute_sell (s : EngineState) (h : Holding) (reason : String)
    (livePrice : Option ℚ) : EngineState × Option BotTrade :=
  match livePrice with
  | none => (s, none)
  | some p0 =>
    if p0 = 0 then (s, none)
    else
      let price := pyRound2 p0
      let revenue := price * (h.quantity : ℚ)
      let profit_loss := revenue - h.buying_price * (h.quantity : ℚ)
      let balance1 := s.balance + revenue
      let bot1 :=
        { s.bot with
          current_capital := s.bot.current_capital + revenue
          total_profit_loss := s.bot.total_profit_loss + profit_loss
          total_trades := s.bot.total_trades + 1
          winning_trades :=
            s.bot.winning_trades + (if 0 < profit_loss then 1 else 0)
          losing_trades :=
            s.bot.losing_trades + (if 0 < profit_loss then 0 else 1) }
      let tx : Transaction :=
        { transaction_type := "sell"
          debit := 0
          credit := revenue
          description := "[BOT] sell"
          balance_after := balance1 }
      let trade : BotTrade :=
        { stock := h.stock
          action := "SELL"
          quantity := h.quantity
          price := price
          total_value := revenue
          strategy_used := reason
          confidence_score := none
          profit_loss := some profit_loss }
      ({ balance := balance1
         holdings := s.holdings.filter (fun g => !(g.stock == h.stock))
         transactions := tx :: s.transactions
         botTrades := trade :: s.botTrades
         bot := bot1 }, some trade)

/-- Refresh the stored current price of the row for one ticker. -/
def update_price (holdings : List Holding) (stock : String)
    (price : ℚ) : List Holding :=
  holdings.map (fun g =>
    if g.stock == stock then { g with current_price := price } else g)

/-- Loop body of `check_stop_loss_take_profit`: iterate over the snapshot of
the account's holdings taken at entry; for each one with an available,
non-zero live price, store the refreshed price, and fire at most one exit —
stop loss when the profit fraction is at most `-stop_loss`, else take profit
when it is at least `take_profit`. -/
def check_slt_go (priceOf : String → Option ℚ) (cfg : RiskConfig) :
    EngineState → List Holding → EngineState
  | s, [] => s
  | s, h :: rest =>
    match priceOf h.stock with
    | none => check_slt_go priceOf cfg s rest
    | some p0 =>
      if p0 = 0 then check_slt_go priceOf cfg s rest
      else
        let h1 := { h with current_price := pyRound2 p0 }
        let s1 := { s with holdings := update_price s.holdings h.stock (pyRound2 p0) }
        let profit_pct := h1.profit_loss_percentage / 100
        if profit_pct ≤ -cfg.stop_loss then
          check_slt_go priceOf cfg
            (execute_sell s1 h1 "Stop Loss Triggered" (priceOf h.stock)).1 rest
        else if cfg.take_profit ≤ profit_pct then
          check_slt_go priceOf cfg
            (execute_sell s1 h1 "Take Profit Triggered" (priceOf h.stock)).1 rest
        else
          check_slt_go priceOf cfg s1 rest

/-- Embedding of `AutoTradingEngine.check_stop_loss_take_profit`. -/
def check_stop_loss_take_profit (priceOf : String → Option ℚ)
    (s : EngineState) : EngineState :=
  check_slt_go priceOf (RISK_CONFIG s.bot.risk_level) s s.holdings

/-- The results dict accumulated by `run_trading_cycle`. -/
structure CycleResults where
  analyzed : ℤ
  bought : ℤ
  sold : ℤ
  signals : List Analysis
deriving DecidableEq, Repr

/-- Scan-pass loop of `run_trading_cycle`: analyse each watchlist ticker and
execute a buy when the action is BUY with confidence at least
`min_confidence`; `bought` counts only buys that actually executed. -/
def scan_go (priceOf : String → Option ℚ) (pivotOf : String → Option String)
    (predOf screenOf indexOf : String → Option (String × ℚ))
    (cfg : RiskConfig) :
    EngineState × CycleResults → List String → EngineState × CycleResults
  | (s, res), [] => (s, res)
  | (s, res), ticker :: rest =>
    match analyze_stock s.bot ticker (pivotOf ticker) (predOf ticker)
        (screenOf ticker) (indexOf ticker) with
    | none => scan_go priceOf pivotOf predOf screenOf indexOf cfg (s, res) rest
    | some a =>
      let res1 :=
        { res with analyzed := res.analyzed + 1, signals := res.signals ++ [a] }
      let step :=
        if a.action = "BUY" ∧ cfg.min_confidence ≤ a.confidence then
          execute_buy s ticker a (priceOf ticker)
        else (s, none)
      let res2 :=
        match step.2 with
        | some _ => { res1 with bought := res1.bought + 1 }
        | none => res1
      scan_go priceOf pivotOf predOf screenOf indexOf cfg (step.1, res2) rest

/-- Embedding of `AutoTradingEngine.run_trading_cycle`: a no-op returning no results
unless the bot is ACTIVE; otherwise the reconciliation pass
(`check_stop_loss_take_profit`) runs first, then the watchlist scan pass. -/
def run_trading_cycle (priceOf : String → Option ℚ)
    (pivotOf : String → Option String)
    (predOf screenOf indexOf : String → Option (String × ℚ))
    (s : EngineState) : EngineState × Option CycleResults :=
  if s.bot.status ≠ BotStatus.ACTIVE then (s, none)
  else
    let cfg := RISK_CONFIG s.bot.risk_level
    let s1 := check_stop_loss_take_profit priceOf s
    let out := scan_go priceOf pivotOf predOf screenOf indexOf cfg
      (s1, ⟨0, 0, 0, []⟩) cfg.stocks
    (out.1, some out.2)

/-- The `start_bot` view: unconditionally set status ACTIVE. -/
def start_bot (s : EngineState) : EngineState :=
  { s with bot := { s.bot with status := BotStatus.ACTIVE } }

/-- The `pause_bot` view: unconditionally set status PAUSED. -/
def pause_bot (s : EngineState) : EngineState :=
  { s with bot := { s.bot with status := BotStatus.PAUSED } }

/-- The `stop_bot` view: credit the balance with the bot current capital and
set status STOPPED. -/
def stop_bot (s : EngineState) : EngineState :=
  { s with
    balance := s.balance + s.bot.current_capital
    bot := { s.bot with status := BotStatus.STOPPED } }

/-- The manual `buy_stock` view: validate symbol and quantity, fetch the
live price, decline when the balance is below the cost, otherwise merge the
Holding, debit the balance and append the Transaction.  The Bool result is
true exactly when the buy executed; a declined buy leaves the state
untouched. -/
def buy_stock (s : EngineState) (stock : String) (quantity : ℤ)
    (livePrice : Option ℚ) : EngineState × Bool :=
  if stock = "" ∨ quantity ≤ 0 then (s, false)
  else
    match livePrice with
    | none => (s, false)
    | some p0 =>
      if p0 = 0 then (s, false)
      else
        let current_price := pyRound2 p0
        let cost := current_price * (quantity : ℚ)
        if s.balance < cost then (s, false)
        else
          let balance1 := s.balance - cost
          let tx : Transaction :=
            { transaction_type := "buy"
              debit := cost
              credit := 0
              description := "manual buy"
              balance_after := balance1 }
          ({ s with
             holdings := merge_fill s.holdings stock quantity current_price
             balance := balance1
             transactions := tx :: s.transactions }, true)

/-- The indicator score accumulated by `NextDayPredictor.predict`: +3 or +1
for a positive day, -3 or -1 for a negative day, scaled by 0.8 on a
high-low range above 5 percent of the close. -/
def nextday_score (open_price high low close : ℚ) : ℚ :=
  let price_change := (close - open_price) / open_price * 100
  let hl_range := (high - low) / close * 100
  let score0 : ℚ :=
    (if 2 < price_change then 3 else if 0 < price_change then 1 else 0) +
    (if price_change < -2 then -3 else if price_change < 0 then -1 else 0)
  if 5 < hl_range then score0 * (8/10) else score0

/-- The classification stage of `NextDayPredictor.predict` on explicit OHLCV
inputs.  Python rejects any falsy (zero) input via `not all([...])`; the
volume enters only that truthiness check. -/
def nextday_classify (open_price high low close volume : ℚ) :
    Option (String × ℚ) :=
  if open_price = 0 ∨ high = 0 ∨ low = 0 ∨ close = 0 ∨ volume = 0 then none
  else
    let score := nextday_score open_price high low close
    if 2 ≤ score then some ("UP", pyRound1 (min (70 + score * 5) 90))
    else if score ≤ -2 then some ("DOWN", pyRound1 (min (70 + |score| * 5) 90))
    else some ("NEUTRAL", pyRound1 50)

/-! Concrete sample rows and states used by the counterexamples and
witnesses. -/

/-- A MEDIUM-risk ACTIVE bot with capital 10000 and only the pivot strategy
enabled. -/
def exBotMedium : Bot :=
  { risk_level := .MEDIUM
    status := .ACTIVE
    initial_capital := 10000
    current_capital := 10000
    total_profit_loss := 0
    total_trades := 0
    winning_trades := 0
    losing_trades := 0
    use_pivot := true
    use_prediction := false
    use_screener := false
    use_index_rebalancing := false }

/-- A pivot-only BUY analysis with confidence 90. -/
def exAnalysis : Analysis :=
  { action := "BUY", confidence := 90, signals := [⟨"Pivot", 90⟩],
    ticker := "AAPL" }

/-- An account with zero free balance whose MEDIUM bot still holds 10000 of
capital. -/
def exStateZeroBalance : EngineState :=
  { balance := 0, holdings := [], transactions := [], botTrades := [],
    bot := exBotMedium }

/-- An account with balance 100000 and the MEDIUM bot. -/
def exStateRich : EngineState :=
  { balance := 100000, holdings := [], transactions := [], botTrades := [],
    bot := exBotMedium }

/-- A state whose bot is already STOPPED. -/
def exStateStopped : EngineState :=
  { balance := 5000, holdings := [], transactions := [], botTrades := [],
    bot := { exBotMedium with status := .STOPPED, current_capital := 7000 } }

/-- C1: the claim states that every buy whose cost would drive the Account
balance negative is rejected, so the balance is never negative after a buy.
Counterexample: with a zero balance and bot capital 10000, the engine buy of
15 shares at price 100 executes (it checks only the bot capital) and leaves
the balance at -1500. -/
theorem C1_counterexample :
    exStateZeroBalance.balance = 0 ∧
    (execute_buy exStateZeroBalance "AAPL" exAnalysis (some 100)).2.isSome = true ∧
    (execute_buy exStateZeroBalance "AAPL" exAnalysis (some 100)).1.balance = -1500 := by
  refine ⟨rfl, ?_, ?_⟩ <;>
  norm_num [execute_buy, exStateZeroBalance, exBotMedium, exAnalysis, RISK_CONFIG,
    pyRound2, pyRoundZ, pythonInt, applyWrites, buyWrites, buyHoldingWrite,
    buyBalanceWrite, buyBotWrite, buyTxWrite, buyTradeWrite, buyTradeRecord,
    merge_fill]

/-- C1 (amended): a manual buy keeps the balance nonnegative (it is declined
whenever the balance is below the cost) and a declined manual buy mutates
nothing; an engine buy keeps the bot current capital nonnegative (it is
declined whenever the cost exceeds the bot capital) and a declined engine
buy mutates nothing — but the engine buy never checks the Account balance,
which it debits regardless. -/
theorem C1_amended (s : EngineState) (stock : String) (q : ℤ)
    (lp : Option ℚ) (t : String) (a : Analysis) :
    (0 ≤ s.balance → 0 ≤ (buy_stock s stock q lp).1.balance) ∧
    ((buy_stock s stock q lp).2 = false → (buy_stock s stock q lp).1 = s) ∧
    (0 ≤ s.bot.current_capital →
      0 ≤ (execute_buy s t a lp).1.bot.current_capital) ∧
    ((execute_buy s t a lp).2 = none → (execute_buy s t a lp).1 = s) := by
  refine ⟨?_, ?_, ?_, ?_⟩
  · intro hb
    unfold buy_stock
    split
    · exact hb
    · split
      · exact hb
      · split
        · exact hb
        · dsimp only
          split
          · exact hb
          · rename_i hlt
            dsimp only
            linarith [not_lt.mp hlt]
  · unfold buy_stock
    split
    · exact fun _ => rfl
    · split
      · exact fun _ => rfl
      · split
        · exact fun _ => rfl
        · dsimp only
          split
          · exact fun _ => rfl
          · intro hfail
            simp at hfail
  · intro hc
    unfold execute_buy
    split
    · exact hc
    · split
      · exact hc
      · dsimp only
        split
        · exact hc
        · split
          · exact hc
          · rename_i hlt
            simp only [applyWrites, buyWrites, buyHoldingWrite, buyBalanceWrite,
              buyBotWrite, buyTxWrite, buyTradeWrite, List.foldl]
            linarith [not_lt.mp hlt]
  · unfold execute_buy
    split
    · exact fun _ => rfl
    · split
      · exact fun _ => rfl
      · dsimp only
        split
        · exact fun _ => rfl
        · split
          · exact fun _ => rfl
          · intro hnone
            simp at hnone

/-- C1 witness: the amended statement instantiated at the rich account with
a manual buy of 10 shares at price 500. -/
theorem C1_amended_witness :
    (0 : ℚ) ≤ exStateRich.balance ∧
    0 ≤ (buy_stock exStateRich "AAPL" 10 (some 500)).1.balance := by
  refine ⟨by decide, ?_⟩
  exact (C1_amended exStateRich "AAPL" 10 (some 500) "AAPL" exAnalysis).1 (by decide)

/-- C3: the claim states that no transition leaves STOPPED.  Counterexample:
`start_bot` on a STOPPED bot unconditionally sets its status back to
ACTIVE. -/
theorem C3_counterexample :
    exStateStopped.bot.status = BotStatus.STOPPED ∧
    (start_bot exStateStopped).bot.status = BotStatus.ACTIVE := by
  decide

/-- C3 (amended): `start_bot` sets the status to ACTIVE and `pause_bot` to
PAUSED unconditionally — also from STOPPED, so STOPPED is not terminal —
and neither moves any capital; every `stop_bot` call credits the balance by
the bot current capital and sets STOPPED, so calling stop twice credits the
capital twice rather than exactly once. -/
theorem C3_amended (s : EngineState) :
    (start_bot s).bot.status = BotStatus.ACTIVE ∧
    (start_bot s).balance = s.balance ∧
    (start_bot s).bot.current_capital = s.bot.current_capital ∧
    (pause_bot s).bot.status = BotStatus.PAUSED ∧
    (pause_bot s).balance = s.balance ∧
    (pause_bot s).bot.current_capital = s.bot.current_capital ∧
    (stop_bot s).bot.status = BotStatus.STOPPED ∧
    (stop_bot s).balance = s.balance + s.bot.current_capital ∧
    (stop_bot (stop_bot s)).balance = s.balance + 2 * s.bot.current_capital := by
  refine ⟨rfl, rfl, rfl, rfl, rfl, rfl, rfl, rfl, ?_⟩
  simp only [stop_bot]
  ring

/-- A bot with all four strategies enabled. -/
def exBotAllStrategies : Bot :=
  { exBotMedium with
    use_prediction := true
    use_screener := true
    use_index_rebalancing := true }

/-- C4: the claim states that every enabled provider (pivot, prediction,
screener, index-rebalancing) is queried and none is omitted from the
aggregation.  Counterexample: with all four enabled and the screener and
index providers returning valid results, the analysis aggregates only the
pivot and prediction signals. -/
theorem C4_counterexample :
    exBotAllStrategies.use_screener = true ∧
    exBotAllStrategies.use_index_rebalancing = true ∧
    (analyze_stock exBotAllStrategies "AAPL" (some "STRONG_BUY")
        (some ("UP", 80)) (some ("PASS", 99)) (some ("ADD", 99))).map
      Analysis.signals = some [⟨"Pivot", 90⟩, ⟨"Prediction", 80⟩] := by
  refine ⟨rfl, rfl, ?_⟩
  norm_num [analyze_stock, collect_signals, exBotAllStrategies, exBotMedium,
    signal_to_score, mean_score, RISK_CONFIG]

/-- C4 (amended): the engine queries only the pivot and next-day-prediction
providers; the analysis result is independent of the screener and
index-rebalancing results even when those strategies are enabled, and the
aggregated signal list consists of the pivot signal (exactly when pivot is
enabled and returned no error sentinel) followed by the prediction signal
(exactly when prediction is enabled and returned no error sentinel). -/
theorem C4_amended (bot : Bot) (t : String) (p : Option String)
    (pr s1 s2 i1 i2 : Option (String × ℚ)) :
    analyze_stock bot t p pr s1 i1 = analyze_stock bot t p pr s2 i2 ∧
    (collect_signals bot p pr).map Signal.name =
      (if bot.use_pivot ∧ p.isSome then ["Pivot"] else []) ++
      (if bot.use_prediction ∧ pr.isSome then ["Prediction"] else []) := by
  refine ⟨rfl, ?_⟩
  cases p <;> cases pr <;> cases hb : bot.use_pivot <;>
    cases hp : bot.use_prediction <;>
    simp [collect_signals, hb, hp]

/-- C5: for a ticker with at least one valid provider score the decision is
the arithmetic mean of the valid scores — action is BUY exactly when the
mean strictly exceeds the risk tier minimum confidence (a mean exactly at
the threshold yields HOLD), confidence is the absolute value of the mean —
and with zero valid provider scores the ticker yields no analysis. -/
theorem C5_signal_aggregation (bot : Bot) (t : String) (p : Option String)
    (pr sr ir : Option (String × ℚ)) :
    (collect_signals bot p pr = [] → analyze_stock bot t p pr sr ir = none) ∧
    (∀ a, analyze_stock bot t p pr sr ir = some a →
      a.signals = collect_signals bot p pr ∧
      a.confidence = |mean_score (collect_signals bot p pr)| ∧
      (a.action = "BUY" ↔
        (RISK_CONFIG bot.risk_level).min_confidence <
          mean_score (collect_signals bot p pr)) ∧
      (mean_score (collect_signals bot p pr) =
          (RISK_CONFIG bot.risk_level).min_confidence → a.action = "HOLD")) := by
  constructor
  · intro h
    simp [analyze_stock, h]
  · intro a ha
    unfold analyze_stock at ha
    by_cases h : collect_signals bot p pr = []
    · simp [h] at ha
    · rw [if_neg (by simpa [List.isEmpty_iff] using h)] at ha
      dsimp only at ha
      rcases Option.some_injective _ ha.symm with rfl
      refine ⟨rfl, rfl, ?_, ?_⟩
      · dsimp only
        split
        · rename_i hgt
          simp only [hgt, iff_true]
        · rename_i hng
          constructor
          · intro heq
            exact absurd heq (by decide)
          · intro hgt
            exact absurd hgt hng
      · intro heq
        dsimp only
        rw [if_neg]
        rw [heq]
        exact lt_irrefl _

/-- C5 witness: a single STRONG_BUY pivot signal on the MEDIUM tier gives
mean 90 and action BUY; pivot HOLD_BULLISH (50) plus an UP prediction at 70
give mean exactly 60, the MEDIUM threshold, and action HOLD. -/
theorem C5_signal_aggregation_witness :
    analyze_stock exBotMedium "AAPL" (some "STRONG_BUY") none none none =
      some ⟨"BUY", 90, [⟨"Pivot", 90⟩], "AAPL"⟩ ∧
    (⟨"BUY", 90, [⟨"Pivot", 90⟩], "AAPL"⟩ : Analysis).action = "BUY" ∧
    analyze_stock exBotAllStrategies "AAPL" (some "HOLD_BULLISH")
        (some ("UP", 70)) none none =
      some ⟨"HOLD", 60, [⟨"Pivot", 50⟩, ⟨"Prediction", 70⟩], "AAPL"⟩ ∧
    (⟨"HOLD", 60, [⟨"Pivot", 50⟩, ⟨"Prediction", 70⟩], "AAPL"⟩ : Analysis).action =
      "HOLD" := by
  have heq1 : analyze_stock exBotMedium "AAPL" (some "STRONG_BUY") none none none =
      some ⟨"BUY", 90, [⟨"Pivot", 90⟩], "AAPL"⟩ := by
    norm_num [analyze_stock, collect_signals, exBotMedium, signal_to_score,
      mean_score, RISK_CONFIG]
  have hsc : signal_to_score "HOLD_BULLISH" = 50 := by decide
  have heq2 : analyze_stock exBotAllStrategies "AAPL" (some "HOLD_BULLISH")
      (some ("UP", 70)) none none =
      some ⟨"HOLD", 60, [⟨"Pivot", 50⟩, ⟨"Prediction", 70⟩], "AAPL"⟩ := by
    norm_num [analyze_stock, collect_signals, exBotAllStrategies, exBotMedium,
      hsc, mean_score, RISK_CONFIG]
  refine ⟨heq1, ?_, heq2, ?_⟩
  · exact ((C5_signal_aggregation exBotMedium "AAPL" (some "STRONG_BUY")
      none none none).2 _ heq1).2.2.1.mpr
      (by norm_num [collect_signals, exBotMedium, signal_to_score, mean_score,
        RISK_CONFIG])
  · exact ((C5_signal_aggregation exBotAllStrategies "AAPL" (some "HOLD_BULLISH")
      (some ("UP", 70)) none none).2 _ heq2).2.2.2
      (by norm_num [collect_signals, exBotAllStrategies, exBotMedium,
        hsc, mean_score, RISK_CONFIG])

/-- A sequence of buy fills `(price, quantity)` on one ticker, merged one at
a time through the shared `get_or_create` plus weighted-average update, as
a run of engine or manual buys on the same (account, ticker) does. -/
def apply_fills (holdings : List Holding) (ticker : String)
    (fills : List (ℚ × ℤ)) : List Holding :=
  fills.foldl (fun hs f => merge_fill hs ticker f.2 f.1) holdings

/-- Merging a fill when the row for the ticker sits at the head of the list
and no other row matches: the head is replaced by the weighted-average
update and the rest is untouched. -/
lemma merge_fill_head (ticker : String) (r : Holding) (h0 : List Holding)
    (hr : r.stock = ticker) (hno : ∀ g ∈ h0, g.stock ≠ ticker)
    (q : ℤ) (p : ℚ) :
    merge_fill (r :: h0) ticker q p =
      { stock := r.stock
        quantity := r.quantity + q
        buying_price :=
          (r.buying_price * (r.quantity : ℚ) + p * (q : ℚ)) /
            (((r.quantity + q : ℤ)) : ℚ)
        current_price := p } :: h0 := by
  unfold merge_fill
  rw [List.find?_cons_of_pos _ (by simp [hr])]
  simp only [List.map_cons]
  rw [if_pos (by simp [hr])]
  congr 1
  have : ∀ g ∈ h0,
      (if (g.stock == ticker) = true then
        { g with
          buying_price :=
            (r.buying_price * (r.quantity : ℚ) + p * (q : ℚ)) /
              (((r.quantity + q : ℤ)) : ℚ)
          quantity := r.quantity + q
          current_price := p } else g) = g := by
    intro g hg
    rw [if_neg (by simp [hno g hg])]
  rw [List.map_congr_left this]
  simp

/-- Invariant of the fill fold: starting from a unique row for the ticker at
the head, the holdings keep exactly that one row for the ticker, its
quantity accumulates the fill quantities, and its price times quantity
accumulates the fill price-quantity products. -/
lemma apply_fills_invariant (ticker : String) (h0 : List Holding)
    (hno : ∀ g ∈ h0, g.stock ≠ ticker) :
    ∀ (fills : List (ℚ × ℤ)) (r : Holding), r.stock = ticker →
      0 < r.quantity → (∀ f ∈ fills, 0 < f.2) →
      ∃ u : Holding, apply_fills (r :: h0) ticker fills = u :: h0 ∧
        u.stock = ticker ∧
        u.quantity = r.quantity + (fills.map Prod.snd).sum ∧
        0 < u.quantity ∧
        u.buying_price * (u.quantity : ℚ) =
          r.buying_price * (r.quantity : ℚ) +
            (fills.map (fun f => f.1 * (f.2 : ℚ))).sum := by
  intro fills
  induction fills with
  | nil =>
    intro r hr hq _
    exact ⟨r, rfl, hr, by simp, hq, by simp⟩
  | cons f rest ih =>
    intro r hr hq hpos
    have hq2 : 0 < r.quantity + f.2 :=
      add_pos hq (hpos f (List.mem_cons_self f rest))
    have step : apply_fills (r :: h0) ticker (f :: rest) =
        apply_fills (merge_fill (r :: h0) ticker f.2 f.1) ticker rest := rfl
    rw [step, merge_fill_head ticker r h0 hr hno f.2 f.1]
    obtain ⟨u, hu, hstock, hqty, hupos, hpq⟩ :=
      ih { stock := r.stock
           quantity := r.quantity + f.2
           buying_price :=
             (r.buying_price * (r.quantity : ℚ) + f.1 * (f.2 : ℚ)) /
               (((r.quantity + f.2 : ℤ)) : ℚ)
           current_price := f.1 }
        hr hq2 (fun g hg => hpos g (List.mem_cons_of_mem f hg))
    refine ⟨u, hu, hstock, ?_, hupos, ?_⟩
    · rw [hqty]
      simp only [List.map_cons, List.sum_cons]
      ring
    · rw [hpq]
      have hden : (((r.quantity + f.2 : ℤ)) : ℚ) ≠ 0 :=
        Int.cast_ne_zero.mpr (ne_of_gt hq2)
      simp only [List.map_cons, List.sum_cons]
      rw [div_mul_cancel₀ _ hden]
      ring

/-- C6: for every sequence of positive-quantity buys on one (account,
ticker) there is exactly one Holding row for that ticker; its quantity is
the sum of the fill quantities and its average buying price is the
quantity-weighted mean of the fill prices.  Both the engine buy and the
manual buy merge through the same `merge_fill` update. -/
theorem C6_holding_merge (ticker : String) (h0 : List Holding)
    (hno : ∀ g ∈ h0, g.stock ≠ ticker) (fills : List (ℚ × ℤ))
    (hne : fills ≠ []) (hpos : ∀ f ∈ fills, 0 < f.2) :
    ∃ u : Holding,
      apply_fills h0 ticker fills = u :: h0 ∧
      ((apply_fills h0 ticker fills).filter
        (fun g => g.stock == ticker)).length = 1 ∧
      u.stock = ticker ∧
      u.quantity = (fills.map Prod.snd).sum ∧
      u.buying_price =
        (fills.map (fun f => f.1 * (f.2 : ℚ))).sum /
          (((fills.map Prod.snd).sum : ℤ) : ℚ) := by
  cases fills with
  | nil => exact absurd rfl hne
  | cons f rest =>
    have hfq : 0 < f.2 := hpos f (List.mem_cons_self f rest)
    have h1 : merge_fill h0 ticker f.2 f.1 =
        (⟨ticker, f.2, f.1, f.1⟩ : Holding) :: h0 := by
      unfold merge_fill
      rw [List.find?_eq_none.mpr (by intro g hg; simp [hno g hg])]
    have step : apply_fills h0 ticker (f :: rest) =
        apply_fills ((⟨ticker, f.2, f.1, f.1⟩ : Holding) :: h0) ticker rest := by
      show apply_fills (merge_fill h0 ticker f.2 f.1) ticker rest = _
      rw [h1]
    obtain ⟨u, hu, hstock, hqty, hupos, hpq⟩ :=
      apply_fills_invariant ticker h0 hno rest ⟨ticker, f.2, f.1, f.1⟩ rfl hfq
        (fun g hg => hpos g (List.mem_cons_of_mem f hg))
    have hall : apply_fills h0 ticker (f :: rest) = u :: h0 := by rw [step, hu]
    have hqty2 : u.quantity = ((f :: rest).map Prod.snd).sum := by
      rw [hqty]; simp
    refine ⟨u, hall, ?_, hstock, hqty2, ?_⟩
    · rw [hall, List.filter_cons_of_pos (by simp [hstock])]
      have : h0.filter (fun g => g.stock == ticker) = [] := by
        rw [List.filter_eq_nil_iff]
        intro g hg
        simp [hno g hg]
      rw [this]
      rfl
    · have hden : ((u.quantity : ℤ) : ℚ) ≠ 0 :=
        Int.cast_ne_zero.mpr (ne_of_gt hupos)
      rw [eq_div_iff (by rw [← hqty2]; exact hden)]
      rw [← hqty2, hpq]
      simp only [List.map_cons, List.sum_cons]

/-- C6 witness: the spec scenario — buy 10 at 500 then 10 at 600 into an
empty book gives one row with quantity 20 and average price 550. -/
theorem C6_holding_merge_witness :
    ∃ u : Holding,
      apply_fills [] "AAPL" [(500, 10), (600, 10)] = [u] ∧
      u.quantity = 20 ∧ u.buying_price = 550 := by
  obtain ⟨u, hu, _, _, hq, hbp⟩ :=
    C6_holding_merge "AAPL" [] (by simp) [(500, 10), (600, 10)] (by simp)
      (by intro f hf
          simp only [List.mem_cons, List.mem_singleton] at hf
          rcases hf with rfl | hf
          · norm_num
          · rcases hf with rfl | hf
            · norm_num
            · simp at hf)
  refine ⟨u, hu, ?_, ?_⟩
  · rw [hq]; norm_num
  · rw [hbp]; norm_num

/-- C7: an engine sell liquidates the entire holding at the (rounded) live
price — revenue is price times quantity, realised profit/loss is revenue
minus buying price times quantity, balance and bot capital are credited by
the revenue, the realised P/L is added to the bot total, the trade counter
increments, winning increments exactly for strictly positive P/L and losing
otherwise (zero counts as losing), no row for the ticker survives, and the
SELL BotTrade row carries the full quantity and the realised P/L. -/
theorem C7_execute_sell (s : EngineState) (h : Holding) (reason : String)
    (p : ℚ) (hp : p ≠ 0) :
    (execute_sell s h reason (some p)).1.balance =
      s.balance + pyRound2 p * (h.quantity : ℚ) ∧
    (execute_sell s h reason (some p)).1.bot.current_capital =
      s.bot.current_capital + pyRound2 p * (h.quantity : ℚ) ∧
    (execute_sell s h reason (some p)).1.bot.total_profit_loss =
      s.bot.total_profit_loss +
        (pyRound2 p * (h.quantity : ℚ) - h.buying_price * (h.quantity : ℚ)) ∧
    (execute_sell s h reason (some p)).1.bot.total_trades =
      s.bot.total_trades + 1 ∧
    (0 < pyRound2 p * (h.quantity : ℚ) - h.buying_price * (h.quantity : ℚ) →
      (execute_sell s h reason (some p)).1.bot.winning_trades =
        s.bot.winning_trades + 1 ∧
      (execute_sell s h reason (some p)).1.bot.losing_trades =
        s.bot.losing_trades) ∧
    (pyRound2 p * (h.quantity : ℚ) - h.buying_price * (h.quantity : ℚ) ≤ 0 →
      (execute_sell s h reason (some p)).1.bot.losing_trades =
        s.bot.losing_trades + 1 ∧
      (execute_sell s h reason (some p)).1.bot.winning_trades =
        s.bot.winning_trades) ∧
    (∀ g ∈ (execute_sell s h reason (some p)).1.holdings, g.stock ≠ h.stock) ∧
    (execute_sell s h reason (some p)).2 =
      some { stock := h.stock
             action := "SELL"
             quantity := h.quantity
             price := pyRound2 p
             total_value := pyRound2 p * (h.quantity : ℚ)
             strategy_used := reason
             confidence_score := none
             profit_loss :=
               some (pyRound2 p * (h.quantity : ℚ) -
                 h.buying_price * (h.quantity : ℚ)) } := by
  unfold execute_sell
  dsimp only
  rw [if_neg hp]
  dsimp only
  refine ⟨rfl, rfl, rfl, rfl, ?_, ?_, ?_, rfl⟩
  · intro hpl
    rw [if_pos hpl]
    exact ⟨rfl, by rw [if_pos hpl]; exact add_zero _⟩
  · intro hpl
    rw [if_neg (not_lt.mpr hpl)]
    exact ⟨rfl, by rw [if_neg (not_lt.mpr hpl)]; exact add_zero _⟩
  · intro g hg
    simp only [List.mem_filter, Bool.not_eq_eq_eq_not, Bool.not_true,
      beq_eq_false_iff_ne, ne_eq] at hg
    exact hg.2

/-- A holding of 10 AAPL bought at 100. -/
def exHolding : Holding := ⟨"AAPL", 10, 100, 100⟩

/-- An account with balance 100000 holding 10 AAPL at 100, run by the
MEDIUM bot. -/
def exStateHolding : EngineState :=
  { balance := 100000, holdings := [exHolding], transactions := [],
    botTrades := [], bot := exBotMedium }

/-- C7 witness: selling the 10-share AAPL holding bought at 100 when the
price has dropped to 91 credits 910 of revenue and books the -90 loss as a
losing trade. -/
theorem C7_execute_sell_witness :
    (execute_sell exStateHolding exHolding "Stop Loss Triggered"
      (some 91)).1.balance = 100910 ∧
    (execute_sell exStateHolding exHolding "Stop Loss Triggered"
      (some 91)).1.bot.losing_trades = 1 := by
  have h := C7_execute_sell exStateHolding exHolding "Stop Loss Triggered" 91
    (by norm_num)
  have hpr : pyRound2 (91 : ℚ) = 91 := by
    norm_num [pyRound2, pyRoundZ]
  constructor
  · rw [h.1, hpr]
    norm_num [exStateHolding, exHolding]
  · have hl := h.2.2.2.2.2.1
      (by rw [hpr]; norm_num [exHolding])
    rw [hl.1]
    norm_num [exStateHolding, exBotMedium]

/-- C8: for an engine buy the maximum investment is the bot capital times
the tier's max position fraction, the quantity is the floor of the maximum
investment over the (rounded) price, and the buy aborts with no trade and
no state change when the price is unavailable, when the quantity is 0, or
when the total cost exceeds the bot capital; otherwise the BUY trade row
carries exactly that floor quantity and cost. -/
theorem C8_position_sizing (s : EngineState) (t : String) (a : Analysis)
    (p : ℚ) (hp0 : p ≠ 0) (hp : 0 < pyRound2 p)
    (hcap : 0 ≤ s.bot.current_capital) :
    (execute_buy s t a none = (s, none)) ∧
    (⌊s.bot.current_capital * (RISK_CONFIG s.bot.risk_level).max_position_size /
        pyRound2 p⌋ = 0 → execute_buy s t a (some p) = (s, none)) ∧
    (s.bot.current_capital < pyRound2 p *
        ((⌊s.bot.current_capital *
          (RISK_CONFIG s.bot.risk_level).max_position_size / pyRound2 p⌋ : ℤ) : ℚ) →
      execute_buy s t a (some p) = (s, none)) ∧
    (∀ q : ℤ, q = ⌊s.bot.current_capital *
        (RISK_CONFIG s.bot.risk_level).max_position_size / pyRound2 p⌋ →
      q ≠ 0 → pyRound2 p * (q : ℚ) ≤ s.bot.current_capital →
      (execute_buy s t a (some p)).2 =
        some (buyTradeRecord t q (pyRound2 p) (pyRound2 p * (q : ℚ)) a)) := by
  have hmps : 0 ≤ (RISK_CONFIG s.bot.risk_level).max_position_size := by
    cases hrl : s.bot.risk_level <;> norm_num [RISK_CONFIG]
  have hnn : 0 ≤ s.bot.current_capital *
      (RISK_CONFIG s.bot.risk_level).max_position_size / pyRound2 p :=
    div_nonneg (mul_nonneg hcap hmps) (le_of_lt hp)
  have hint : pythonInt (s.bot.current_capital *
      (RISK_CONFIG s.bot.risk_level).max_position_size / pyRound2 p) =
      ⌊s.bot.current_capital *
        (RISK_CONFIG s.bot.risk_level).max_position_size / pyRound2 p⌋ := by
    unfold pythonInt
    rw [if_pos hnn]
  refine ⟨rfl, ?_, ?_, ?_⟩
  · intro hq0
    unfold execute_buy
    dsimp only
    rw [if_neg hp0]
    rw [hint, if_pos hq0]
  · intro hover
    unfold execute_buy
    dsimp only
    rw [if_neg hp0]
    rw [hint]
    by_cases hq0 : ⌊s.bot.current_capital *
        (RISK_CONFIG s.bot.risk_level).max_position_size / pyRound2 p⌋ = 0
    · rw [if_pos hq0]
    · rw [if_neg hq0]
      rw [if_pos hover]
  · intro q hq hq0 hle
    subst hq
    unfold execute_buy
    dsimp only
    rw [if_neg hp0]
    rw [hint, if_neg hq0]
    rw [if_neg (not_lt.mpr hle)]

/-- C8 witness: the spec scenario — a MEDIUM bot with capital 10000 buying
a 100-dollar stock gets floor(1500/100) = 15 shares for a cost of 1500. -/
theorem C8_position_sizing_witness :
    (execute_buy exStateRich "AAPL" exAnalysis (some 100)).2 =
      some (buyTradeRecord "AAPL" 15 100 1500 exAnalysis) ∧
    (buyTradeRecord "AAPL" 15 100 1500 exAnalysis).quantity = 15 := by
  have hpr : pyRound2 (100 : ℚ) = 100 := by
    norm_num [pyRound2, pyRoundZ]
  have h := (C8_position_sizing exStateRich "AAPL" exAnalysis 100 (by norm_num)
    (by rw [hpr]; norm_num) (by norm_num [exStateRich, exBotMedium])).2.2.2 15
    (by rw [hpr]; norm_num [exStateRich, exBotMedium, RISK_CONFIG])
    (by norm_num)
    (by rw [hpr]; norm_num [exStateRich, exBotMedium])
  rw [hpr] at h
  norm_num at h
  exact ⟨h, rfl⟩

/-- A bot with only the next-day prediction strategy enabled. -/
def exBotPredOnly : Bot :=
  { exBotMedium with
    use_pivot := false
    use_prediction := true }

/-- C10: a NEUTRAL next-day prediction always carries confidence 50, and the
engine negates the confidence for every prediction other than UP, so the
NEUTRAL result enters the aggregation as score -50 (50 points below a zero
score); with the prediction provider as the only signal source the
aggregated mean is -50, not 0. -/
theorem C10_neutral_prediction (o hi lo c v : ℚ) (bot : Bot)
    (p : Option String) (conf : ℚ)
    (hn : nextday_classify o hi lo c v = some ("NEUTRAL", conf))
    (hb : bot.use_prediction = true) :
    conf = 50 ∧
    (⟨"Prediction", -50⟩ : Signal) ∈
      collect_signals bot p (some ("NEUTRAL", conf)) ∧
    (bot.use_pivot = false →
      mean_score (collect_signals bot p (some ("NEUTRAL", conf))) = -50) := by
  have hconf : conf = 50 := by
    unfold nextday_classify at hn
    split at hn
    · exact absurd hn (by simp)
    · dsimp only at hn
      split at hn
      · simp at hn
      · split at hn
        · simp at hn
        · simp only [Option.some.injEq, Prod.mk.injEq] at hn
          rw [← hn.2]
          norm_num [pyRound1, pyRoundZ]
  clear hn
  subst hconf
  refine ⟨rfl, ?_, ?_⟩
  · simp [collect_signals, hb]
  · intro hnp
    simp [collect_signals, hb, hnp, mean_score]

/-- C10 witness: a flat day (open 100, high 101, low 100, close 100) scores
0 and classifies NEUTRAL at confidence 50; with only the prediction
provider enabled the aggregated mean is -50. -/
theorem C10_neutral_prediction_witness :
    nextday_classify 100 101 100 100 1000 = some ("NEUTRAL", 50) ∧
    mean_score (collect_signals exBotPredOnly none (some ("NEUTRAL", 50))) =
      -50 := by
  have heq : nextday_classify 100 101 100 100 1000 = some ("NEUTRAL", 50) := by
    norm_num [nextday_classify, nextday_score, pyRound1, pyRoundZ]
  exact ⟨heq, (C10_neutral_prediction 100 101 100 100 1000 exBotPredOnly none
    50 heq rfl).2.2 rfl⟩

/-- The state after only the first `k` of the five database writes of
`execute_buy` — the state the store retains when a later write raises, since
the except handler of the source swallows the exception and performs no
rollback (there is no transaction wrapper around the write sequence). -/
def buyWritesUpTo (k : ℕ) (ticker : String) (qty : ℤ) (price total_cost : ℚ)
    (analysis : Analysis) (s : EngineState) : EngineState :=
  applyWrites ((buyWrites ticker qty price total_cost analysis).take k) s

/-- C2: the committed engine buy is exactly the five writes (holding upsert,
balance save, bot save, transaction append, bot-trade append) applied in
source order with no transaction wrapper; the state after only the first
two writes — what the store retains if the bot save, transaction append or
bot-trade append raises, since the except handler performs no rollback —
already has the balance debited and the holding merged but no Transaction
or BotTrade appended, and differs from both the initial and the committed
state: a partial state is observable, contradicting the all-or-nothing
claim. -/
theorem C2_no_rollback :
    (execute_buy exStateRich "AAPL" exAnalysis (some 100)).1 =
      buyWritesUpTo 5 "AAPL" 15 100 1500 exAnalysis exStateRich ∧
    (buyWritesUpTo 2 "AAPL" 15 100 1500 exAnalysis exStateRich).balance =
      exStateRich.balance - 1500 ∧
    (buyWritesUpTo 2 "AAPL" 15 100 1500 exAnalysis exStateRich).holdings =
      [⟨"AAPL", 15, 100, 100⟩] ∧
    (buyWritesUpTo 2 "AAPL" 15 100 1500 exAnalysis exStateRich).transactions =
      exStateRich.transactions ∧
    (buyWritesUpTo 2 "AAPL" 15 100 1500 exAnalysis exStateRich).botTrades =
      exStateRich.botTrades ∧
    buyWritesUpTo 2 "AAPL" 15 100 1500 exAnalysis exStateRich ≠
      exStateRich ∧
    buyWritesUpTo 2 "AAPL" 15 100 1500 exAnalysis exStateRich ≠
      (execute_buy exStateRich "AAPL" exAnalysis (some 100)).1 := by
  refine ⟨?_, ?_, ?_, rfl, rfl, ?_, ?_⟩
  · norm_num [execute_buy, exStateRich, exBotMedium, exAnalysis, RISK_CONFIG,
      pyRound2, pyRoundZ, pythonInt, buyWritesUpTo, applyWrites, buyWrites,
      buyHoldingWrite, buyBalanceWrite, buyBotWrite, buyTxWrite, buyTradeWrite,
      buyTradeRecord, merge_fill]
  · norm_num [buyWritesUpTo, applyWrites, buyWrites, buyHoldingWrite,
      buyBalanceWrite, exStateRich, merge_fill]
  · norm_num [buyWritesUpTo, applyWrites, buyWrites, buyHoldingWrite,
      buyBalanceWrite, exStateRich, exBotMedium, merge_fill]
  · intro hcontra
    have hb := congrArg EngineState.balance hcontra
    norm_num [buyWritesUpTo, applyWrites, buyWrites, buyHoldingWrite,
      buyBalanceWrite, exStateRich, merge_fill] at hb
  · intro hcontra
    have hb := congrArg (fun st => st.transactions.length) hcontra
    norm_num [buyWritesUpTo, applyWrites, buyWrites, buyHoldingWrite,
      buyBalanceWrite, buyBotWrite, buyTxWrite, buyTradeWrite, buyTradeRecord,
      execute_buy, exStateRich, exBotMedium, exAnalysis, RISK_CONFIG,
      pyRound2, pyRoundZ, pythonInt, merge_fill] at hb

/-- A LOW-risk ACTIVE bot (stop loss 5 percent, watchlist led by AAPL) with
only the pivot strategy enabled. -/
def exBotLow : Bot :=
  { exBotMedium with risk_level := .LOW }

/-- A state holding 10 AAPL bought at 100, run by the LOW bot. -/
def exState9 : EngineState :=
  { balance := 100000, holdings := [⟨"AAPL", 10, 100, 100⟩],
    transactions := [], botTrades := [], bot := exBotLow }

/-- Price oracle: AAPL trades at 91 (down 9 percent), everything else is
unavailable. -/
def priceOf9 (t : String) : Option ℚ :=
  if t = "AAPL" then some 91 else none

/-- Pivot oracle: a STRONG_BUY signal for AAPL, error sentinel elsewhere. -/
def pivotOf9 (t : String) : Option String :=
  if t = "AAPL" then some "STRONG_BUY" else none

/-- Oracle answering with the error sentinel for every ticker. -/
def noneOracle (_ : String) : Option (String × ℚ) := none

/-- The AAPL holding after the reconciliation pass refreshes its price. -/
def h9mid : Holding := ⟨"AAPL", 10, 100, 91⟩

/-- The intermediate state with the refreshed AAPL price stored. -/
def s9mid : EngineState :=
  { balance := 100000, holdings := [h9mid], transactions := [],
    botTrades := [], bot := exBotLow }

/-- The SELL record of the stop-loss exit. -/
def sellTrade9 : BotTrade :=
  ⟨"AAPL", "SELL", 10, 91, 910, "Stop Loss Triggered", none, some (-90)⟩

/-- The sell Transaction of the stop-loss exit. -/
def sellTx9 : Transaction := ⟨"sell", 0, 910, "[BOT] sell", 100910⟩

/-- The bot row after the stop-loss exit. -/
def bot9A : Bot :=
  { exBotLow with
    current_capital := 10910
    total_profit_loss := -90
    total_trades := 1
    losing_trades := 1 }

/-- The state after the reconciliation pass: AAPL sold at 91. -/
def exState9A : EngineState :=
  { balance := 100910, holdings := [], transactions := [sellTx9],
    botTrades := [sellTrade9], bot := bot9A }

/-- The BUY record of the scan-pass re-entry. -/
def buyTrade9 : BotTrade :=
  ⟨"AAPL", "BUY", 11, 91, 1001, "Pivot", some 90, none⟩

/-- The buy Transaction of the scan-pass re-entry. -/
def buyTx9 : Transaction := ⟨"buy", 1001, 0, "[BOT] buy", 99909⟩

/-- The bot row after the scan-pass re-entry. -/
def bot9B : Bot :=
  { exBotLow with
    current_capital := 9909
    total_profit_loss := -90
    total_trades := 2
    losing_trades := 1 }

/-- The state at the end of the cycle: AAPL re-bought, 11 shares at 91. -/
def exState9B : EngineState :=
  { balance := 99909, holdings := [⟨"AAPL", 11, 91, 91⟩],
    transactions := [buyTx9, sellTx9], botTrades := [buyTrade9, sellTrade9],
    bot := bot9B }

/-- A ticker with neither a pivot nor a prediction result yields no
analysis, whatever the bot configuration. -/
lemma analyze_stock_no_signals (bot : Bot) (t : String)
    (sr ir : Option (String × ℚ)) :
    analyze_stock bot t none none sr ir = none := by
  cases hb : bot.use_pivot <;> cases hp : bot.use_prediction <;>
    simp [analyze_stock, collect_signals, hb, hp]

/-- A lone STRONG_BUY pivot signal on a LOW-risk pivot-only bot yields the
BUY analysis with confidence 90. -/
lemma analyze_stock_strongbuy9 (bot : Bot) (hp : bot.use_pivot = true)
    (hpr : bot.use_prediction = false) (hrl : bot.risk_level = .LOW)
    (sr ir : Option (String × ℚ)) :
    analyze_stock bot "AAPL" (some "STRONG_BUY") none sr ir =
      some exAnalysis := by
  have h90 : signal_to_score "STRONG_BUY" = 90 := by decide
  norm_num [analyze_stock, collect_signals, hp, hpr, hrl, h90, mean_score,
    RISK_CONFIG, exAnalysis]

/-- The stop-loss sell of the refreshed AAPL holding at 91. -/
lemma sell9_eq :
    execute_sell s9mid h9mid "Stop Loss Triggered" (some 91) =
      (exState9A, some sellTrade9) := by
  have hpr91 : pyRound2 (91 : ℚ) = 91 := by norm_num [pyRound2, pyRoundZ]
  unfold execute_sell
  dsimp only
  rw [if_neg (show (91 : ℚ) ≠ 0 by norm_num)]
  rw [hpr91]
  norm_num [s9mid, h9mid, exState9A, sellTx9, sellTrade9, bot9A, exBotLow,
    exBotMedium, Prod.ext_iff]

/-- The reconciliation pass on the initial state: refresh AAPL to 91,
detect the 9 percent loss against the LOW-tier 5 percent stop loss, and
liquidate. -/
lemma recon9_eq :
    check_stop_loss_take_profit priceOf9 exState9 = exState9A := by
  have hpr91 : pyRound2 (91 : ℚ) = 91 := by norm_num [pyRound2, pyRoundZ]
  have hpA : priceOf9 "AAPL" = some 91 := rfl
  have hcond : ((h9mid.profit_loss_percentage / 100 : ℚ) ≤
      -(RISK_CONFIG .LOW).stop_loss) := by
    norm_num [h9mid, Holding.profit_loss_percentage, Holding.profit_loss,
      Holding.current_value, Holding.total_invested, RISK_CONFIG]
  unfold check_stop_loss_take_profit
  show check_slt_go priceOf9 (RISK_CONFIG .LOW) exState9 exState9.holdings =
    exState9A
  have hh : exState9.holdings = [⟨"AAPL", 10, 100, 100⟩] := rfl
  rw [hh]
  rw [check_slt_go]
  rw [show priceOf9 (Holding.stock ⟨"AAPL", 10, 100, 100⟩) = some 91 from rfl]
  dsimp only
  rw [if_neg (show ¬(91 : ℚ) = 0 by norm_num)]
  rw [hpr91]
  have hupd : update_price exState9.holdings "AAPL" 91 = [h9mid] := by
    simp [update_price, exState9, h9mid]
  rw [if_pos]
  · rw [show ({ exState9 with holdings := update_price exState9.holdings "AAPL" 91 } :
        EngineState) = s9mid by rw [hupd]; rfl]
    show check_slt_go priceOf9 (RISK_CONFIG .LOW)
      (execute_sell s9mid h9mid "Stop Loss Triggered" (some 91)).1 [] = exState9A
    rw [sell9_eq]
    rfl
  · exact hcond

/-- The scan-pass re-entry: the LOW bot buys 11 AAPL shares at 91 out of
its post-sale capital 10910. -/
lemma buy9_eq :
    execute_buy exState9A "AAPL" exAnalysis (some 91) =
      (exState9B, some buyTrade9) := by
  have hpr91 : pyRound2 (91 : ℚ) = 91 := by norm_num [pyRound2, pyRoundZ]
  have hq : pythonInt (exState9A.bot.current_capital *
      (RISK_CONFIG exState9A.bot.risk_level).max_position_size / 91) = 11 := by
    norm_num [pythonInt, exState9A, bot9A, exBotLow, exBotMedium, RISK_CONFIG]
  unfold execute_buy
  dsimp only
  rw [if_neg (show (91 : ℚ) ≠ 0 by norm_num)]
  rw [hpr91, hq]
  rw [if_neg (show (11 : ℤ) ≠ 0 by norm_num)]
  rw [if_neg (show ¬(exState9A.bot.current_capital < 91 * ((11 : ℤ) : ℚ)) by
    norm_num [exState9A, bot9A, exBotLow, exBotMedium])]
  have hstr : String.intercalate ", " ["Pivot"] = "Pivot" := rfl
  norm_num [hstr, applyWrites, buyWrites, buyHoldingWrite, buyBalanceWrite,
    buyBotWrite, buyTxWrite, buyTradeWrite, buyTradeRecord, merge_fill,
    exState9A, exState9B, sellTx9, buyTx9, sellTrade9, buyTrade9, bot9A,
    bot9B, exBotLow, exBotMedium, exAnalysis, Prod.ext_iff,
    pyRound2, pyRoundZ]

/-- C9: the claim states that a holding exited during the reconciliation
pass is never bought again during the scan pass of the same cycle.
Counterexample: with AAPL held at 100 and trading at 91 under the LOW bot
(5 percent stop loss) while the pivot oracle says STRONG_BUY, one cycle
first stop-loss-sells the 10 AAPL shares and then immediately re-buys 11
AAPL shares in its scan pass, leaving a fresh AAPL holding. -/
theorem C9_counterexample :
    ((run_trading_cycle priceOf9 pivotOf9 noneOracle noneOracle noneOracle
        exState9).1.botTrades.map (fun tr => (tr.stock, tr.action))) =
      [("AAPL", "BUY"), ("AAPL", "SELL")] ∧
    (run_trading_cycle priceOf9 pivotOf9 noneOracle noneOracle noneOracle
        exState9).1.holdings = [⟨"AAPL", 11, 91, 91⟩] ∧
    exState9.holdings = [⟨"AAPL", 10, 100, 100⟩] := by
  have hrun : (run_trading_cycle priceOf9 pivotOf9 noneOracle noneOracle
      noneOracle exState9).1 = exState9B := by
    unfold run_trading_cycle
    rw [if_neg (show ¬exState9.bot.status ≠ BotStatus.ACTIVE from by
      simp [exState9, exBotLow, exBotMedium])]
    dsimp only
    rw [show RISK_CONFIG exState9.bot.risk_level = RISK_CONFIG .LOW from rfl]
    rw [recon9_eq]
    rw [show (RISK_CONFIG .LOW).stocks = ["AAPL", "MSFT", "JNJ", "PG", "KO"]
      from rfl]
    rw [scan_go]
    rw [show pivotOf9 "AAPL" = some "STRONG_BUY" from rfl]
    simp only [noneOracle]
    rw [analyze_stock_strongbuy9 exState9A.bot rfl rfl rfl]
    dsimp only
    rw [if_pos (by
      constructor
      · rfl
      · show (RISK_CONFIG .LOW).min_confidence ≤ exAnalysis.confidence
        norm_num [RISK_CONFIG, exAnalysis])]
    rw [show priceOf9 "AAPL" = some 91 from rfl]
    rw [buy9_eq]
    dsimp only
    rw [scan_go]
    rw [show pivotOf9 "MSFT" = none from rfl]
    simp only [noneOracle]
    rw [analyze_stock_no_signals]
    rw [scan_go]
    rw [show pivotOf9 "JNJ" = none from rfl]
    simp only [noneOracle]
    rw [analyze_stock_no_signals]
    rw [scan_go]
    rw [show pivotOf9 "PG" = none from rfl]
    simp only [noneOracle]
    rw [analyze_stock_no_signals]
    rw [scan_go]
    rw [show pivotOf9 "KO" = none from rfl]
    simp only [noneOracle]
    rw [analyze_stock_no_signals]
    rw [scan_go]
  refine ⟨?_, ?_, rfl⟩
  · rw [hrun]
    rfl
  · rw [hrun]
    rfl

/-- An engine sell leaves the bot-trade log unchanged or pushes exactly one
SELL row. -/
lemma execute_sell_botTrades_cons (s : EngineState) (h : Holding)
    (reason : String) (lp : Option ℚ) :
    (execute_sell s h reason lp).1.botTrades = s.botTrades ∨
    ∃ tr : BotTrade, (execute_sell s h reason lp).1.botTrades =
      tr :: s.botTrades ∧ tr.action = "SELL" := by
  cases lp with
  | none => exact Or.inl rfl
  | some p =>
    by_cases hp : p = 0
    · left
      unfold execute_sell
      dsimp only
      rw [if_pos hp]
    · right
      refine ⟨{ stock := h.stock
                action := "SELL"
                quantity := h.quantity
                price := pyRound2 p
                total_value := pyRound2 p * (h.quantity : ℚ)
                strategy_used := reason
                confidence_score := none
                profit_loss := some (pyRound2 p * (h.quantity : ℚ) -
                  h.buying_price * (h.quantity : ℚ)) }, ?_, rfl⟩
      unfold execute_sell
      dsimp only
      rw [if_neg hp]

/-- An engine buy leaves the bot-trade log unchanged or pushes exactly one
BUY row. -/
lemma execute_buy_botTrades_cons (s : EngineState) (tk : String)
    (a : Analysis) (lp : Option ℚ) :
    (execute_buy s tk a lp).1.botTrades = s.botTrades ∨
    ∃ tr : BotTrade, (execute_buy s tk a lp).1.botTrades =
      tr :: s.botTrades ∧ tr.action = "BUY" := by
  cases lp with
  | none => exact Or.inl rfl
  | some p =>
    by_cases hp : p = 0
    · left
      unfold execute_buy
      dsimp only
      rw [if_pos hp]
    · unfold execute_buy
      dsimp only
      rw [if_neg hp]
      split
      · exact Or.inl rfl
      · split
        · exact Or.inl rfl
        · right
          refine ⟨buyTradeRecord tk
              (pythonInt (s.bot.current_capital *
                (RISK_CONFIG s.bot.risk_level).max_position_size / pyRound2 p))
              (pyRound2 p)
              (pyRound2 p * ((pythonInt (s.bot.current_capital *
                (RISK_CONFIG s.bot.risk_level).max_position_size /
                  pyRound2 p) : ℤ) : ℚ))
              a, ?_, rfl⟩
          simp only [applyWrites, buyWrites, List.foldl, buyHoldingWrite,
            buyBalanceWrite, buyBotWrite, buyTxWrite, buyTradeWrite]

/-- Conversion of the one-step lemmas to suffix form. -/
lemma sell_suffix_of_cons (s : EngineState) (h : Holding) (reason : String)
    (lp : Option ℚ) :
    ∃ ts : List BotTrade,
      (execute_sell s h reason lp).1.botTrades = ts ++ s.botTrades ∧
      ∀ t ∈ ts, t.action = "SELL" := by
  rcases execute_sell_botTrades_cons s h reason lp with heq | ⟨tr, heq, htr⟩
  · exact ⟨[], heq, by simp⟩
  · refine ⟨[tr], heq, ?_⟩
    intro t ht
    simp only [List.mem_singleton] at ht
    subst ht
    exact htr

/-- Conversion of the one-step buy lemma to suffix form. -/
lemma buy_suffix_of_cons (s : EngineState) (tk : String) (a : Analysis)
    (lp : Option ℚ) :
    ∃ ts : List BotTrade,
      (execute_buy s tk a lp).1.botTrades = ts ++ s.botTrades ∧
      ∀ t ∈ ts, t.action = "BUY" := by
  rcases execute_buy_botTrades_cons s tk a lp with heq | ⟨tr, heq, htr⟩
  · exact ⟨[], heq, by simp⟩
  · refine ⟨[tr], heq, ?_⟩
    intro t ht
    simp only [List.mem_singleton] at ht
    subst ht
    exact htr

/-- The reconciliation loop appends only SELL rows to the bot-trade log. -/
lemma check_slt_go_botTrades_suffix (priceOf : String → Option ℚ)
    (cfg : RiskConfig) :
    ∀ (hl : List Holding) (s : EngineState),
      ∃ ts : List BotTrade,
        (check_slt_go priceOf cfg s hl).botTrades = ts ++ s.botTrades ∧
        ∀ t ∈ ts, t.action = "SELL" := by
  intro hl
  induction hl with
  | nil => intro s; exact ⟨[], rfl, by simp⟩
  | cons h rest ih =>
    intro s
    rw [check_slt_go]
    rcases hp : priceOf h.stock with _ | p0
    · exact ih s
    · dsimp only
      by_cases h0 : p0 = 0
      · rw [if_pos h0]
        exact ih s
      · rw [if_neg h0]
        split
        · obtain ⟨ts1, hts1, hall1⟩ := sell_suffix_of_cons
            { s with holdings := update_price s.holdings h.stock (pyRound2 p0) }
            { h with current_price := pyRound2 p0 } "Stop Loss Triggered"
            (some p0)
          obtain ⟨ts2, hts2, hall2⟩ := ih _
          refine ⟨ts2 ++ ts1, ?_, ?_⟩
          · rw [hts2, hts1, List.append_assoc]
          · intro t ht
            rcases List.mem_append.mp ht with hm | hm
            · exact hall2 t hm
            · exact hall1 t hm
        · split
          · obtain ⟨ts1, hts1, hall1⟩ := sell_suffix_of_cons
              { s with holdings := update_price s.holdings h.stock (pyRound2 p0) }
              { h with current_price := pyRound2 p0 } "Take Profit Triggered"
              (some p0)
            obtain ⟨ts2, hts2, hall2⟩ := ih _
            refine ⟨ts2 ++ ts1, ?_, ?_⟩
            · rw [hts2, hts1, List.append_assoc]
            · intro t ht
              rcases List.mem_append.mp ht with hm | hm
              · exact hall2 t hm
              · exact hall1 t hm
          · obtain ⟨ts2, hts2, hall2⟩ := ih
              { s with holdings := update_price s.holdings h.stock (pyRound2 p0) }
            exact ⟨ts2, hts2, hall2⟩

/-- The scan loop appends only BUY rows to the bot-trade log. -/
lemma scan_go_botTrades_suffix (priceOf : String → Option ℚ)
    (pivotOf : String → Option String)
    (predOf screenOf indexOf : String → Option (String × ℚ))
    (cfg : RiskConfig) :
    ∀ (tks : List String) (s : EngineState) (res : CycleResults),
      ∃ ts : List BotTrade,
        (scan_go priceOf pivotOf predOf screenOf indexOf cfg
          (s, res) tks).1.botTrades = ts ++ s.botTrades ∧
        ∀ t ∈ ts, t.action = "BUY" := by
  intro tks
  induction tks with
  | nil => intro s res; exact ⟨[], rfl, by simp⟩
  | cons tk rest ih =>
    intro s res
    rw [scan_go]
    rcases ha : analyze_stock s.bot tk (pivotOf tk) (predOf tk) (screenOf tk)
      (indexOf tk) with _ | a
    · exact ih s res
    · dsimp only
      by_cases hc : a.action = "BUY" ∧ cfg.min_confidence ≤ a.confidence
      · rw [if_pos hc]
        obtain ⟨ts1, hts1, hall1⟩ := buy_suffix_of_cons s tk a
          (priceOf tk)
        obtain ⟨ts2, hts2, hall2⟩ := ih (execute_buy s tk a (priceOf tk)).1 _
        refine ⟨ts2 ++ ts1, ?_, ?_⟩
        · rw [hts2, hts1, List.append_assoc]
        · intro t ht
          rcases List.mem_append.mp ht with hm | hm
          · exact hall2 t hm
          · exact hall1 t hm
      · rw [if_neg hc]
        exact ih s _

/-- C9 (amended): within one cycle the reconciliation pass strictly
precedes the scan pass — every BotTrade row the cycle appends decomposes
into the scan pass's BUY rows stacked on top of the reconciliation pass's
SELL rows — but a holding exited during reconciliation CAN be re-bought in
the same cycle's scan pass, since `execute_buy` recreates the deleted
Holding row whenever its ticker receives a sufficiently confident BUY
signal (see the counterexample). -/
theorem C9_amended (priceOf : String → Option ℚ)
    (pivotOf : String → Option String)
    (predOf screenOf indexOf : String → Option (String × ℚ))
    (s : EngineState) (hact : s.bot.status = BotStatus.ACTIVE) :
    ∃ buys sells : List BotTrade,
      (run_trading_cycle priceOf pivotOf predOf screenOf indexOf
        s).1.botTrades = buys ++ sells ++ s.botTrades ∧
      (∀ t ∈ buys, t.action = "BUY") ∧
      (∀ t ∈ sells, t.action = "SELL") := by
  unfold run_trading_cycle
  rw [if_neg (show ¬s.bot.status ≠ BotStatus.ACTIVE from by simp [hact])]
  dsimp only
  obtain ⟨buys, hb, hab⟩ := scan_go_botTrades_suffix priceOf pivotOf predOf
    screenOf indexOf (RISK_CONFIG s.bot.risk_level)
    (RISK_CONFIG s.bot.risk_level).stocks
    (check_stop_loss_take_profit priceOf s) ⟨0, 0, 0, []⟩
  obtain ⟨sells, hs, has⟩ := check_slt_go_botTrades_suffix priceOf
    (RISK_CONFIG s.bot.risk_level) s.holdings s
  refine ⟨buys, sells, ?_, hab, has⟩
  rw [hb]
  unfold check_stop_loss_take_profit
  rw [hs, List.append_assoc]

/-- C9 amended witness: the decomposition instantiated on the stop-loss
re-buy cycle of the counterexample state. -/
theorem C9_amended_witness :
    exState9.bot.status = BotStatus.ACTIVE ∧
    ∃ buys sells : List BotTrade,
      (run_trading_cycle priceOf9 pivotOf9 noneOracle noneOracle noneOracle
        exState9).1.botTrades = buys ++ sells ++ exState9.botTrades ∧
      (∀ t ∈ buys, t.action = "BUY") ∧
      (∀ t ∈ sells, t.action = "SELL") :=
  ⟨rfl, C9_amended priceOf9 pivotOf9 noneOracle noneOracle noneOracle
    exState9 rfl⟩

end TradingBack
